import Mathlib

/-!
Verification development for the toolhive registry MCP server's
fetch/filter/sort/similarity pipeline (`internal/mcp/tools.go` and the
extended tool file of the same package).

Conventions of the shallow embedding:
* Go `float64` arithmetic on similarity scores is modelled exactly over `ℚ`
  (all operations involved are additions, multiplications by small constants
  and divisions of small integers).
* Go `int`/`int64` are modelled as `Int`.
* Go `map[string]any` values decoded from JSON are modelled as association
  lists `List (String × Val)` carrying one concrete iteration order; Go's
  randomised map-iteration order is modelled by quantifying over permutations
  of that list.
* `strings.ToLower` is `String.toLower`; `strings.EqualFold` is modelled as
  equality of lower-cased strings (the inputs relevant here are ASCII);
  `len(word)` on a Go string is byte length, modelled as `String.length`
  (identical on ASCII); `strings.Fields` splits on whitespace runs.
* The wall-clock timeout branch of `searchServers` is not modelled (real
  time); all properties below concern the page/error/cap logic.
-/

namespace RegistryMCP

/-- JSON-decoded `any` values as they occur inside `_meta.PublisherProvided`.
Object fields are kept as an association list in one iteration order. -/
inductive Val where
  | null : Val
  | str : String → Val
  | num : ℚ → Val
  | bool : Bool → Val
  | arr : List Val → Val
  | map : List (String × Val) → Val

/-- `Transport` of a packaging descriptor (`pkg.Transport.Type`). -/
structure Transport where
  type : String
deriving DecidableEq, Repr

/-- A packaging descriptor (`upstreamv0.Package`), restricted to the fields
the pipeline reads. -/
structure Package where
  registryType : String
  identifier : String
  transport : Transport
  runTimeHint : String
deriving DecidableEq, Repr

/-- `upstreamv0.ServerJSON`, restricted to the fields the pipeline reads.
`meta = none` models `server.Meta == nil || server.Meta.PublisherProvided == nil`;
`meta = some pp` carries the `PublisherProvided` object in one iteration
order. -/
structure ServerJSON where
  name : String
  description : String
  version : String
  packages : List Package
  meta : Option (List (String × Val))

/-- `upstreamv0.ServerResponse` (the pipeline only reads `.Server`). -/
structure ServerResponse where
  server : ServerJSON

/-- Go map lookup `m[k]` on a decoded JSON object. -/
def lookupVal (m : List (String × Val)) (k : String) : Option Val :=
  (m.find? (fun p => p.1 = k)).map (fun p => p.2)

/-- Inner loop of `extractToolHiveMetadata`: the first package identifier in
`providerMap` whose value is a JSON object, in iteration order. -/
def firstMapValue : List (String × Val) → Option (List (String × Val))
  | [] => none
  | (_, Val.map m) :: _ => some m
  | _ :: rest => firstMapValue rest

/-- Outer loop of `extractToolHiveMetadata`: walk provider namespaces in
iteration order, skip non-object providers, and return the first package
object found; an empty object if none. -/
def firstPackageMap : List (String × Val) → List (String × Val)
  | [] => []
  | (_, Val.map providerMap) :: rest =>
    match firstMapValue providerMap with
    | some m => m
    | none => firstPackageMap rest
  | _ :: rest => firstPackageMap rest

/-- `extractToolHiveMetadata` (tools.go lines 63-96): returns the first
package metadata object under `_meta.PublisherProvided`, or an empty object
when the metadata is absent. -/
def extractToolHiveMetadata (server : ServerJSON) : List (String × Val) :=
  match server.meta with
  | none => []
  | some pp => firstPackageMap pp

/-- Truncation of a `float64` to `int64` (`int64(x)` rounds toward zero). -/
def truncToInt (q : ℚ) : Int :=
  if q < 0 then -(Int.floor (-q)) else Int.floor q

/-- `extractStars`: `thMeta["metadata"].(map)` then `["stars"].(float64)`,
defaulting to 0. -/
def extractStars (server : ServerJSON) : Int :=
  match lookupVal (extractToolHiveMetadata server) "metadata" with
  | some (Val.map meta) =>
    match lookupVal meta "stars" with
    | some (Val.num q) => truncToInt q
    | _ => 0
  | _ => 0

/-- `extractPulls`: like `extractStars` for the `pulls` field. -/
def extractPulls (server : ServerJSON) : Int :=
  match lookupVal (extractToolHiveMetadata server) "metadata" with
  | some (Val.map meta) =>
    match lookupVal meta "pulls" with
    | some (Val.num q) => truncToInt q
    | _ => 0
  | _ => 0

/-- `extractTools`: `thMeta["tools"].([]any)`, keeping the string elements. -/
def extractTools (server : ServerJSON) : List String :=
  match lookupVal (extractToolHiveMetadata server) "tools" with
  | some (Val.arr items) =>
    items.filterMap (fun v => match v with | Val.str s => some s | _ => none)
  | _ => []

/-- `extractTags`: `thMeta["tags"].([]any)`, keeping the string elements. -/
def extractTags (server : ServerJSON) : List String :=
  match lookupVal (extractToolHiveMetadata server) "tags" with
  | some (Val.arr items) =>
    items.filterMap (fun v => match v with | Val.str s => some s | _ => none)
  | _ => []

/-- `strings.ToLower`: lower-case every character.  Expressed over the
character list (rather than through `String.toLower`, which is defined by
recursion on byte positions) so that concrete instances reduce inside the
kernel; the two agree character-for-character. -/
def lower (s : String) : String := String.mk (s.data.map Char.toLower)

/-- `scoreTagOverlap` (similarity file lines 850-877): build the set of
lower-cased tags of `tagsA`, count the elements of `tagsB` (a list, so
duplicates count repeatedly) whose lower-case form is in that set, and divide
by `len(tagsA) + len(tagsB) - matches`. -/
def scoreTagOverlap (tagsA tagsB : List String) : ℚ :=
  if tagsA.length = 0 ∨ tagsB.length = 0 then 0
  else
    let hits : Nat := tagsB.countP (fun t => (tagsA.map lower).contains (lower t))
    let union : Int := (tagsA.length : Int) + (tagsB.length : Int) - (hits : Int)
    if union = 0 then 0 else (hits : ℚ) / (union : ℚ)

/-- `scoreToolOverlap` (lines 879-906): identical computation over tool
names. -/
def scoreToolOverlap (toolsA toolsB : List String) : ℚ :=
  if toolsA.length = 0 ∨ toolsB.length = 0 then 0
  else
    let hits : Nat := toolsB.countP (fun t => (toolsA.map lower).contains (lower t))
    let union : Int := (toolsA.length : Int) + (toolsB.length : Int) - (hits : Int)
    if union = 0 then 0 else (hits : ℚ) / (union : ℚ)

/-- Accumulator-based word splitter over the character list: whitespace ends
the current word (if non-empty), everything else extends it. -/
def wordsAux : List Char → List Char → List String
  | [], [] => []
  | [], acc => [String.mk acc.reverse]
  | c :: rest, acc =>
    if c.isWhitespace then
      match acc with
      | [] => wordsAux rest []
      | _ => String.mk acc.reverse :: wordsAux rest []
    else wordsAux rest (c :: acc)

/-- `strings.Fields`: split around runs of whitespace, producing no empty
words. -/
def fields (s : String) : List String := wordsAux s.data []

/-- The matching loop of `scoreDescriptionSimilarity`: walk the words of the
second description in order and consume at most one occurrence from the
frequency pool of long (length > 3) words of the first description. The pool
`freqA` is modelled as the multiset of long words. -/
def consumeMatches (ws : List String) (pool : Multiset String) : Nat :=
  match ws with
  | [] => 0
  | w :: rest =>
    if w.length > 3 ∧ w ∈ pool then 1 + consumeMatches rest (pool.erase w)
    else consumeMatches rest pool

/-- `scoreDescriptionSimilarity` (lines 908-946): overlap coefficient between
the long-word multisets of the two lower-cased, whitespace-split
descriptions, divided by the smaller total word count. -/
def scoreDescriptionSimilarity (descA descB : String) : ℚ :=
  let wordsA := fields (lower descA)
  let wordsB := fields (lower descB)
  if wordsA.length = 0 ∨ wordsB.length = 0 then 0
  else
    let hits := consumeMatches wordsB (↑(wordsA.filter (fun w => w.length > 3)))
    let minLen := min wordsA.length wordsB.length
    if minLen = 0 then 0 else (hits : ℚ) / (minLen : ℚ)

/-- `scoreTransportCompatibility` (lines 948-961): 0.5 when either server has
no packages, else 1.0 when the first packages' transports match
case-insensitively, 0.0 otherwise. -/
def scoreTransportCompatibility (serverA serverB : ServerJSON) : ℚ :=
  match serverA.packages, serverB.packages with
  | pa :: _, pb :: _ =>
    if lower pa.transport.type = lower pb.transport.type then 1 else 0
  | _, _ => 1/2

/-- `calculateSimilarityScore` (lines 963-986): 0 for equal names, else the
weighted blend 0.4·tags + 0.4·tools + 0.1·transport + 0.1·description. -/
def calculateSimilarityScore (sourceServer targetServer : ServerJSON) : ℚ :=
  if sourceServer.name = targetServer.name then 0
  else
    let tagScore := scoreTagOverlap (extractTags sourceServer) (extractTags targetServer)
    let toolScore := scoreToolOverlap (extractTools sourceServer) (extractTools targetServer)
    let descScore := scoreDescriptionSimilarity sourceServer.description targetServer.description
    let transportScore := scoreTransportCompatibility sourceServer targetServer
    tagScore * (4/10) + toolScore * (4/10) + transportScore * (1/10) + descScore * (1/10)

/-- `estimateMigrationComplexity` (lines 988-1005): "Low" when both tool
lists are empty or the tool overlap score is at least 0.8, "Medium" from 0.5,
"High" otherwise. -/
def estimateMigrationComplexity (sourceServer targetServer : ServerJSON) : String :=
  let sourceTools := extractTools sourceServer
  let targetTools := extractTools targetServer
  if sourceTools.length = 0 ∧ targetTools.length = 0 then "Low"
  else
    let toolScore := scoreToolOverlap sourceTools targetTools
    if toolScore ≥ 8/10 then "Low"
    else if toolScore ≥ 5/10 then "Medium"
    else "High"

/-- Character-list substring test used to model `strings.Contains`. -/
def infixOfChars : List Char → List Char → Bool
  | sub, [] => sub.isEmpty
  | sub, c :: rest => sub.isPrefixOf (c :: rest) || infixOfChars sub rest

/-- `strings.Contains hay sub`. -/
def strContains (hay sub : String) : Bool :=
  infixOfChars sub.data hay.data

/-- `strings.EqualFold`, modelled as equality of the lower-cased strings. -/
def equalFold (a b : String) : Bool :=
  lower a == lower b

/-- `SearchServersParams` (tools.go lines 28-48). -/
structure SearchServersParams where
  query : String
  name : String
  tags : List String
  tools : List String
  transport : String
  registryType : String
  minStars : Int
  minPulls : Int
  tier : String
  status : String
  cursor : String
  limit : Int
  versionFilter : String
  sortBy : String

/-- `matchesNameFilter`: case-insensitive substring match on the name. -/
def matchesNameFilter (server : ServerJSON) (nameFilter : String) : Bool :=
  if nameFilter = "" then true
  else strContains (lower server.name) (lower nameFilter)

/-- `matchesQueryFilter`: case-insensitive substring match against the name,
the description, or any extracted tool name. -/
def matchesQueryFilter (server : ServerJSON) (query : String) : Bool :=
  if query = "" then true
  else
    let queryLower := lower query
    strContains (lower server.name) queryLower ||
    strContains (lower server.description) queryLower ||
    (extractTools server).any (fun tool => strContains (lower tool) queryLower)

/-- `hasTag`: case-insensitive membership. -/
def hasTag (tags : List String) (targetTag : String) : Bool :=
  tags.any (fun tag => equalFold tag targetTag)

/-- `matchesTagsFilter`: the server must carry every required tag. -/
def matchesTagsFilter (server : ServerJSON) (requiredTags : List String) : Bool :=
  if requiredTags.length = 0 then true
  else requiredTags.all (fun requiredTag => hasTag (extractTags server) requiredTag)

/-- `hasTool`: case-insensitive substring membership. -/
def hasTool (tools : List String) (targetTool : String) : Bool :=
  let targetLower := lower targetTool
  tools.any (fun tool => strContains (lower tool) targetLower)

/-- `matchesToolsFilter`: the server must carry every required tool. -/
def matchesToolsFilter (server : ServerJSON) (requiredTools : List String) : Bool :=
  if requiredTools.length = 0 then true
  else requiredTools.all (fun requiredTool => hasTool (extractTools server) requiredTool)

/-- `matchesTransportFilter`: some package declares the transport. -/
def matchesTransportFilter (server : ServerJSON) (transport : String) : Bool :=
  if transport = "" then true
  else server.packages.any (fun pkg => equalFold pkg.transport.type transport)

/-- `matchesRegistryTypeFilter`: some package has the registry type. -/
def matchesRegistryTypeFilter (server : ServerJSON) (registryType : String) : Bool :=
  if registryType = "" then true
  else server.packages.any (fun pkg => equalFold pkg.registryType registryType)

/-- `matchesStarsFilter`: thresholds `<= 0` are no-ops. -/
def matchesStarsFilter (server : ServerJSON) (minStars : Int) : Bool :=
  if minStars ≤ 0 then true
  else extractStars server ≥ minStars

/-- `matchesPullsFilter`: thresholds `<= 0` are no-ops. -/
def matchesPullsFilter (server : ServerJSON) (minPulls : Int) : Bool :=
  if minPulls ≤ 0 then true
  else extractPulls server ≥ minPulls

/-- The `thMeta["tier"].(string)` type assertion with its zero-value default. -/
def tierOf (server : ServerJSON) : String :=
  match lookupVal (extractToolHiveMetadata server) "tier" with
  | some (Val.str s) => s
  | _ => ""

/-- The `thMeta["status"].(string)` type assertion with its zero-value default. -/
def statusOf (server : ServerJSON) : String :=
  match lookupVal (extractToolHiveMetadata server) "status" with
  | some (Val.str s) => s
  | _ => ""

/-- `matchesTierFilter`. -/
def matchesTierFilter (server : ServerJSON) (tier : String) : Bool :=
  if tier = "" then true else equalFold (tierOf server) tier

/-- `matchesStatusFilter`. -/
def matchesStatusFilter (server : ServerJSON) (status : String) : Bool :=
  if status = "" then true else equalFold (statusOf server) status

/-- `matchesAllFilters` (tools.go lines 276-287): conjunction of the ten
predicates. -/
def matchesAllFilters (server : ServerJSON) (params : SearchServersParams) : Bool :=
  matchesNameFilter server params.name &&
  matchesQueryFilter server params.query &&
  matchesTagsFilter server params.tags &&
  matchesToolsFilter server params.tools &&
  matchesTransportFilter server params.transport &&
  matchesRegistryTypeFilter server params.registryType &&
  matchesStarsFilter server params.minStars &&
  matchesPullsFilter server params.minPulls &&
  matchesTierFilter server params.tier &&
  matchesStatusFilter server params.status

/-- `applyFilters` (tools.go lines 263-273). -/
def applyFilters (servers : List ServerResponse) (params : SearchServersParams) :
    List ServerResponse :=
  servers.filter (fun serverResp => matchesAllFilters serverResp.server params)

/-- `applySorting` (tools.go lines 457-487). Go sorts with `sort.Slice`,
whose order among equal keys is unspecified (see the stability analysis of
that call elsewhere in this development); the comparison sort is modelled
here as a merge sort over the same comparators. The `updated_at` comparator
in the source always returns false. -/
def applySorting (servers : List ServerResponse) (sortBy : String) :
    List ServerResponse :=
  if sortBy = "" then servers
  else if sortBy = "stars" then
    servers.mergeSort (fun a b => extractStars b.server ≤ extractStars a.server)
  else if sortBy = "pulls" then
    servers.mergeSort (fun a b => extractPulls b.server ≤ extractPulls a.server)
  else if sortBy = "name" then
    servers.mergeSort (fun a b => a.server.name ≤ b.server.name)
  else if sortBy = "updated_at" then
    servers.mergeSort (fun _ _ => true)
  else servers

/-- One page returned by the catalog collaborator (`listServersFromAPI`):
the page entries and `Metadata.NextCursor`. -/
structure PageResponse where
  servers : List ServerResponse
  nextCursor : String

/-- The outcome of a `search_servers` call.  `fetchError` is the hard-error
result returned when the very first page fails; `panicked` models a Go
runtime panic (slice bound out of range); `diverged` marks runs that consume
more collaborator outcomes than supplied (never reached in the scenarios
proved below). -/
inductive SearchOutcome where
  | fetchError (msg : String)
  | panicked
  | ok (servers : List ServerResponse) (truncated : Bool) (pagesRead : Nat)
      (nextCursor : String)
  | diverged

/-- Go slice expression `l[:n]` on a slice of length `len l`: panics (`none`)
when the bound is negative or beyond the length. -/
def sliceTo (l : List ServerResponse) (n : Int) : Option (List ServerResponse) :=
  if 0 ≤ n ∧ n ≤ (l.length : Int) then some (l.take n.toNat) else none

/-- The limit normalisation at the top of `searchServers` (tools.go lines
145-151): `0` defaults to 20, values above 1000 are clamped to 1000, and
nothing else is changed. -/
def clampLimit (limit : Int) : Int :=
  let targetLimit := if limit = 0 then 20 else limit
  if targetLimit > 1000 then 1000 else targetLimit

/-- The page-accumulation loop of `searchServers` (tools.go lines 159-211),
driven by the list of collaborator outcomes consumed in call order.  The
wall-clock timeout check is not modelled.  On a failed page: hard error if no
page has succeeded, else stop with `truncated = true` and the cursor that was
used for the failing request.  On a successful page: append the entries,
count the page, trim with `allServers[:targetLimit]` once the accumulated
length reaches the target (keeping that page's next cursor), stop at an
empty next cursor, and otherwise continue. -/
def fetchLoop (targetLimit : Int) :
    List (Except String PageResponse) → List ServerResponse → Nat → String →
    SearchOutcome
  | [], _, _, _ => SearchOutcome.diverged
  | Except.error e :: _, acc, pagesRead, cursor =>
    if pagesRead = 0 then SearchOutcome.fetchError e
    else SearchOutcome.ok acc true pagesRead cursor
  | Except.ok page :: rest, acc, pagesRead, _cursor =>
    let acc2 := acc ++ page.servers
    let pagesRead2 := pagesRead + 1
    if (acc2.length : Int) ≥ targetLimit then
      match sliceTo acc2 targetLimit with
      | none => SearchOutcome.panicked
      | some trimmed => SearchOutcome.ok trimmed false pagesRead2 page.nextCursor
    else if page.nextCursor = "" then SearchOutcome.ok acc2 false pagesRead2 ""
    else fetchLoop targetLimit rest acc2 pagesRead2 page.nextCursor

/-- `searchServers` (tools.go lines 138-260) as a pure pipeline: clamp the
limit, run the page-accumulation loop, then apply the client-side filters and
the sort stage to whatever the loop accumulated. -/
def searchServers (params : SearchServersParams)
    (outcomes : List (Except String PageResponse)) : SearchOutcome :=
  match fetchLoop (clampLimit params.limit) outcomes [] 0 params.cursor with
  | SearchOutcome.ok allServers truncated pagesRead cursor =>
    let lastNextCursor := if cursor ≠ "" then cursor else ""
    let filtered := applyFilters allServers params
    let sorted := applySorting filtered params.sortBy
    SearchOutcome.ok sorted truncated pagesRead lastNextCursor
  | other => other

/-- A scored alternative as accumulated by `findAlternatives` (similarity
file lines 1292-1321).  The human-readable `MatchReasons` and `Differences`
lists are purely descriptive strings that influence neither selection nor
order and are not modelled. -/
structure ScoredAlternative where
  server : ServerResponse
  similarityScore : ℚ
  migrationComplexity : String

/-- The selection core of `findAlternatives` (lines 1263-1331): normalise the
limit (0 defaults to 5, capped at 20), score every fetched server, skip the
source server by name, keep scores above 0.1, sort descending by score
(`sort.Slice`, modelled as a merge sort) and trim to the limit
(`alternatives[:limit]`, which panics — `none` — for a negative limit smaller
than the list length). -/
def findAlternatives (sourceServer : ServerJSON) (allServers : List ServerResponse)
    (limit : Int) : Option (List ScoredAlternative) :=
  let limit2 := if limit = 0 then 5 else limit
  let limit3 := if limit2 > 20 then 20 else limit2
  let alternatives := allServers.filterMap (fun serverResp =>
    if serverResp.server.name = sourceServer.name then none
    else
      let score := calculateSimilarityScore sourceServer serverResp.server
      if score > 1/10 then
        some { server := serverResp
               similarityScore := score
               migrationComplexity :=
                 estimateMigrationComplexity sourceServer serverResp.server }
      else none)
  let sorted := alternatives.mergeSort
    (fun a b => b.similarityScore ≤ a.similarityScore)
  if (sorted.length : Int) > limit3 then
    if limit3 < 0 then none else some (sorted.take limit3.toNat)
  else some sorted

/-- The sequential by-name fetch in `analyzeToolOverlap` (similarity file
lines 1865-1876): look the names up in order, returning on the first
failure.  The first component records the names for which a lookup was
actually attempted. -/
def fetchNamedServers (lookup : String → Option ServerJSON) :
    List String → List String × Except String (List ServerJSON)
  | [] => ([], Except.ok [])
  | name :: rest =>
    match lookup name with
    | none => ([name], Except.error ("server not found: " ++ name))
    | some server =>
      let result := fetchNamedServers lookup rest
      (name :: result.1, result.2.map (fun servers => server :: servers))

/-- The validation and fetch phase of `analyzeToolOverlap` (similarity file
lines 1852-1876): requests naming fewer than 2 or more than 10 servers are
rejected before any lookup; otherwise the named servers are fetched in
order.  The second component is the lookup trace; the downstream pure
overlap-matrix analysis on the fetched servers is not needed for the
properties proved here. -/
def analyzeToolOverlapFetch (serverNames : List String)
    (lookup : String → Option ServerJSON) :
    Except String (List ServerJSON) × List String :=
  if serverNames.length < 2 ∨ serverNames.length > 10 then
    (Except.error "provide between 2 and 10 servers to analyze", [])
  else
    let result := fetchNamedServers lookup serverNames
    (result.2, result.1)

/-- Accumulated entries of a list of successfully fetched pages. -/
def pagesFlat (pages : List PageResponse) : List ServerResponse :=
  (pages.map (fun p => p.servers)).flatten

/-- The cursor the loop holds after consuming the given pages, starting from
`c`: each successful page overwrites it with that page's next cursor. -/
def cursorAfter (c : String) : List PageResponse → String
  | [] => c
  | p :: rest => cursorAfter p.nextCursor rest

/-- The loop-progression condition: starting from accumulator `acc`, each
page keeps the accumulated length below the target and supplies a non-empty
next cursor, so the loop requests the following page. -/
def advances (target : Int) : List ServerResponse → List PageResponse → Prop
  | _, [] => True
  | acc, p :: rest =>
    ((acc ++ p.servers).length : Int) < target ∧ p.nextCursor ≠ "" ∧
    advances target (acc ++ p.servers) rest

/-- Sample metadata block carrying tag and tool lists under one provider
namespace and one package identifier. -/
def sampleMeta (tags tools : List String) : Option (List (String × Val)) :=
  some [("io.github.example", Val.map [("pkg", Val.map
    [("tags", Val.arr (tags.map Val.str)),
     ("tools", Val.arr (tools.map Val.str))])])]

/-- Sample catalog entry with the given name, tags and tools and no
packaging descriptors. -/
def sampleServer (name : String) (tags tools : List String) : ServerJSON :=
  { name := name, description := "", version := "1.0.0",
    packages := [], meta := sampleMeta tags tools }

/-- A `SearchServersParams` value with every field inactive. -/
def emptyParams : SearchServersParams :=
  { query := "", name := "", tags := [], tools := [], transport := "",
    registryType := "", minStars := 0, minPulls := 0, tier := "", status := "",
    cursor := "", limit := 0, versionFilter := "", sortBy := "" }

/-- C1: the spec claims the composite similarity score always lies in [0,1];
the code violates this.  With tag lists `["data"]` and
`["data", "data", "data"]` (duplicates), `scoreTagOverlap` counts three
matches against a union of size one, and the composite score evaluates to
5/4 > 1, contradicting the `(0.0 to 1.0)` contract stated in the source's
own doc comments. -/
theorem similarity_score_exceeds_one_on_duplicate_tags :
    calculateSimilarityScore (sampleServer "pg-mcp" ["data"] [])
        (sampleServer "my-mcp" ["data", "data", "data"] []) = 5/4 ∧
    1 < calculateSimilarityScore (sampleServer "pg-mcp" ["data"] [])
        (sampleServer "my-mcp" ["data", "data", "data"] []) := by
  have h : calculateSimilarityScore (sampleServer "pg-mcp" ["data"] [])
      (sampleServer "my-mcp" ["data", "data", "data"] []) =
      (((3 : Nat) : ℚ) / ((1 : Int) : ℚ)) * (4/10) + 0 * (4/10) +
        (1/2) * (1/10) + 0 * (1/10) := by rfl
  rw [h]
  norm_num

/-- The tool-overlap score is 0 when the first list is empty. -/
theorem scoreToolOverlap_nil_left (l : List String) : scoreToolOverlap [] l = 0 := by
  unfold scoreToolOverlap
  simp

/-- `estimateMigrationComplexity` written as one nested conditional over the
tool-overlap score. -/
theorem estimateMigrationComplexity_eq (A B : ServerJSON) :
    estimateMigrationComplexity A B =
      if extractTools A = [] ∧ extractTools B = [] then "Low"
      else if scoreToolOverlap (extractTools A) (extractTools B) ≥ 8/10 then "Low"
      else if scoreToolOverlap (extractTools A) (extractTools B) ≥ 5/10 then "Medium"
      else "High" := by
  simp only [estimateMigrationComplexity, List.length_eq_zero]

/-- C7: `estimateMigrationComplexity` classifies pairs by the tool-overlap
score: "Low" from 0.8 (or when both entries declare no tools at all),
"Medium" from 0.5, "High" otherwise. -/
theorem migration_complexity_classification (A B : ServerJSON) :
    (extractTools A = [] ∧ extractTools B = [] →
      estimateMigrationComplexity A B = "Low") ∧
    (scoreToolOverlap (extractTools A) (extractTools B) ≥ 8/10 →
      estimateMigrationComplexity A B = "Low") ∧
    (5/10 ≤ scoreToolOverlap (extractTools A) (extractTools B) ∧
        scoreToolOverlap (extractTools A) (extractTools B) < 8/10 →
      estimateMigrationComplexity A B = "Medium") ∧
    (¬(extractTools A = [] ∧ extractTools B = []) ∧
        scoreToolOverlap (extractTools A) (extractTools B) < 5/10 →
      estimateMigrationComplexity A B = "High") := by
  refine ⟨?_, ?_, ?_, ?_⟩ <;> rw [estimateMigrationComplexity_eq] <;> intro h
  · rw [if_pos h]
  · by_cases h1 : extractTools A = [] ∧ extractTools B = []
    · rw [if_pos h1]
    · rw [if_neg h1, if_pos h]
  · rcases h with ⟨h5, h8⟩
    have h1 : ¬(extractTools A = [] ∧ extractTools B = []) := by
      rintro ⟨ha, _⟩
      rw [ha, scoreToolOverlap_nil_left] at h5
      norm_num at h5
    rw [if_neg h1, if_neg (not_le.mpr h8), if_pos h5]
  · rcases h with ⟨hne, h5⟩
    have h8 : ¬ scoreToolOverlap (extractTools A) (extractTools B) ≥ 8/10 :=
      not_le.mpr (lt_of_lt_of_le h5 (by norm_num))
    rw [if_neg hne, if_neg h8, if_neg (not_le.mpr h5)]

/-- C10: a negative `Limit` is neither defaulted nor clamped, and once the
first page fetch succeeds the accumulated length (≥ 0) is at once ≥ the
negative target, so the handler evaluates `allServers[:targetLimit]` with a
negative bound and panics instead of returning a well-formed result. -/
theorem negative_limit_panics (params : SearchServersParams)
    (page : PageResponse) (rest : List (Except String PageResponse))
    (h : params.limit < 0) :
    clampLimit params.limit = params.limit ∧
    searchServers params (Except.ok page :: rest) = SearchOutcome.panicked := by
  have h0 : ¬ params.limit = 0 := by omega
  have h1000 : ¬ params.limit > 1000 := by omega
  have hc : clampLimit params.limit = params.limit := by
    unfold clampLimit
    simp [h0, h1000]
  refine ⟨hc, ?_⟩
  unfold searchServers fetchLoop
  have hge : ((([] : List ServerResponse) ++ page.servers).length : Int) ≥
      clampLimit params.limit := by
    rw [hc]
    have hnn : (0 : Int) ≤ ((([] : List ServerResponse) ++ page.servers).length : Int) :=
      Int.ofNat_nonneg _
    omega
  have hslice : sliceTo ([] ++ page.servers) (clampLimit params.limit) = none := by
    unfold sliceTo
    rw [if_neg]
    rw [hc]
    intro hcontra
    omega
  simp only [hge, if_pos, hslice]

/-- Universally-failing entry lookup. -/
def lookupNone : String → Option ServerJSON := fun _ => none

/-- Entry lookup resolving every name to a sample entry of that name. -/
def lookupAll : String → Option ServerJSON := fun n => some (sampleServer n [] [])

/-- The lookup trace of the by-name fetch covers exactly the requested names
when every lookup succeeds. -/
theorem fetchNamedServers_trace_complete (lookup : String → Option ServerJSON) :
    ∀ names : List String, (∀ n ∈ names, (lookup n).isSome) →
      (fetchNamedServers lookup names).1 = names := by
  intro names
  induction names with
  | nil => intro _; rfl
  | cons name rest ih =>
    intro hall
    have hname : (lookup name).isSome := hall name (by simp)
    unfold fetchNamedServers
    cases hl : lookup name with
    | none => rw [hl] at hname; simp at hname
    | some server =>
      simp only
      rw [ih (fun n hn => hall n (by simp [hn]))]

/-- C8: `analyzeToolOverlap` rejects requests naming fewer than 2 or more
than 10 servers with an error result before attempting any lookup (the
lookup trace is empty), and requests naming 2 to 10 servers proceed to look
up exactly the named entries. -/
theorem tool_overlap_request_validation (names : List String)
    (lookup : String → Option ServerJSON) :
    (names.length < 2 ∨ names.length > 10 →
      (analyzeToolOverlapFetch names lookup).1 =
        Except.error "provide between 2 and 10 servers to analyze" ∧
      (analyzeToolOverlapFetch names lookup).2 = []) ∧
    (2 ≤ names.length → names.length ≤ 10 →
      (∀ n ∈ names, (lookup n).isSome) →
      (analyzeToolOverlapFetch names lookup).2 = names) := by
  constructor
  · intro h
    unfold analyzeToolOverlapFetch
    rw [if_pos h]
    exact ⟨rfl, rfl⟩
  · intro h2 h10 hall
    unfold analyzeToolOverlapFetch
    rw [if_neg (by omega)]
    exact fetchNamedServers_trace_complete lookup names hall

/-- Witness for C8 at concrete requests: a single-name request is rejected
with an empty lookup trace, and a two-name request looks up both names. -/
theorem tool_overlap_request_validation_witness :
    ((analyzeToolOverlapFetch ["a"] lookupNone).1 =
        Except.error "provide between 2 and 10 servers to analyze" ∧
      (analyzeToolOverlapFetch ["a"] lookupNone).2 = []) ∧
    (analyzeToolOverlapFetch ["a", "b"] lookupAll).2 = ["a", "b"] :=
  ⟨(tool_overlap_request_validation ["a"] lookupNone).1 (by decide),
   (tool_overlap_request_validation ["a", "b"] lookupAll).2 (by decide) (by decide)
     (by intro n _; rfl)⟩

/-- Witness for C10 at a concrete call: limit -1, one successful empty
page. -/
theorem negative_limit_panics_witness :
    clampLimit (-1) = -1 ∧
    searchServers { emptyParams with limit := -1 }
      [Except.ok { servers := [], nextCursor := "" }] = SearchOutcome.panicked :=
  negative_limit_panics { emptyParams with limit := -1 }
    { servers := [], nextCursor := "" } [] (by decide)

/-- Witness for C7 at concrete entries: equal singleton tool lists give
"Low", disjoint ones give "High". -/
theorem migration_complexity_classification_witness :
    estimateMigrationComplexity (sampleServer "a" [] ["query"])
      (sampleServer "b" [] ["query"]) = "Low" ∧
    estimateMigrationComplexity (sampleServer "a" [] ["query"])
      (sampleServer "b" [] ["write"]) = "High" := by
  constructor
  · apply (migration_complexity_classification _ _).2.1
    have h : scoreToolOverlap (extractTools (sampleServer "a" [] ["query"]))
        (extractTools (sampleServer "b" [] ["query"])) =
        ((1 : Nat) : ℚ) / ((1 : Int) : ℚ) := by rfl
    rw [h]
    norm_num
  · apply (migration_complexity_classification _ _).2.2.2
    constructor
    · intro hcontra
      exact absurd hcontra.1 (by decide)
    · have h : scoreToolOverlap (extractTools (sampleServer "a" [] ["query"]))
          (extractTools (sampleServer "b" [] ["write"])) =
          ((0 : Nat) : ℚ) / ((2 : Int) : ℚ) := by rfl
      rw [h]
      norm_num

/-- The `lastNextCursor` computation of `searchServers` is the identity. -/
theorem lastCursor_id (c : String) : (if c ≠ "" then c else "") = c := by
  by_cases h : c = "" <;> simp [h]

/-- Running the page loop over successful pages that keep advancing
(`advances`), followed by a failing page, stops at the failure with the
accumulated entries, `truncated = true`, the page count, and the cursor that
requested the failing page. -/
theorem fetchLoop_stops_on_later_failure (target : Int) (e : String)
    (rest : List (Except String PageResponse)) :
    ∀ (pages : List PageResponse) (acc : List ServerResponse) (n : Nat)
      (cursor : String),
      advances target acc pages → n + pages.length ≠ 0 →
      fetchLoop target (pages.map Except.ok ++ Except.error e :: rest) acc n cursor =
        SearchOutcome.ok (acc ++ pagesFlat pages) true (n + pages.length)
          (cursorAfter cursor pages) := by
  intro pages
  induction pages with
  | nil =>
    intro acc n cursor _ hne
    have hne2 : n ≠ 0 := by simpa using hne
    simp only [List.map_nil, List.nil_append]
    unfold fetchLoop
    rw [if_neg hne2]
    simp [pagesFlat, cursorAfter]
  | cons p ps ih =>
    intro acc n cursor hadv hne
    obtain ⟨hlt, hcur, hadv2⟩ := hadv
    simp only [List.map_cons, List.cons_append]
    unfold fetchLoop
    rw [if_neg (not_le.mpr hlt), if_neg hcur]
    rw [ih (acc ++ p.servers) (n + 1) p.nextCursor hadv2 (by omega)]
    simp only [pagesFlat, List.map_cons, List.flatten_cons, cursorAfter,
      List.append_assoc, List.length_cons]
    congr 1
    omega

/-- C5: the page-failure policy of `searchServers`.  If the very first page
request fails, the call returns the hard error result (no entries); if a
later page fails after at least one success, the call returns the partial
accumulated entry set (run through the client-side filters and the sort
stage) with `truncated = true`. -/
theorem search_page_failure_policy (params : SearchServersParams) :
    (∀ (e : String) (rest : List (Except String PageResponse)),
      searchServers params (Except.error e :: rest) = SearchOutcome.fetchError e) ∧
    (∀ (pages : List PageResponse) (e : String)
        (rest : List (Except String PageResponse)),
      pages ≠ [] → advances (clampLimit params.limit) [] pages →
      searchServers params (pages.map Except.ok ++ Except.error e :: rest) =
        SearchOutcome.ok
          (applySorting (applyFilters (pagesFlat pages) params) params.sortBy)
          true pages.length (cursorAfter params.cursor pages)) := by
  constructor
  · intro e rest
    rfl
  · intro pages e rest hne hadv
    unfold searchServers
    rw [fetchLoop_stops_on_later_failure (clampLimit params.limit) e rest pages [] 0
      params.cursor hadv (by cases pages with | nil => exact absurd rfl hne | cons p ps => simp)]
    simp only [List.nil_append, Nat.zero_add]
    rw [lastCursor_id]

/-- The scenario page for the C3 and C5 concrete runs: one non-matching
entry, one entry whose name contains "match". -/
def cexPage : PageResponse :=
  { servers := [{ server := sampleServer "server-one" [] [] },
                { server := sampleServer "match-two" [] [] }],
    nextCursor := "" }

/-- Parameters requesting one result with the name filter "match". -/
def cexParams : SearchServersParams :=
  { emptyParams with limit := 1, name := "match" }

/-- Witness for C5 at concrete calls: a first-page failure yields the hard
error; one successful page followed by a failure yields the page's entries
with `truncated = true` and the page's cursor. -/
theorem search_page_failure_policy_witness :
    searchServers emptyParams [Except.error "connection refused"] =
      SearchOutcome.fetchError "connection refused" ∧
    searchServers emptyParams
      [Except.ok { servers := [{ server := sampleServer "server-one" [] [] }],
                   nextCursor := "c2" },
       Except.error "connection refused"] =
      SearchOutcome.ok [{ server := sampleServer "server-one" [] [] }] true 1 "c2" := by
  constructor
  · exact (search_page_failure_policy emptyParams).1 "connection refused" []
  · have h := (search_page_failure_policy emptyParams).2
      [{ servers := [{ server := sampleServer "server-one" [] [] }], nextCursor := "c2" }]
      "connection refused" [] (by simp)
      (by refine ⟨by decide, by decide, trivial⟩)
    exact h

/-- The page loop never returns more entries than a non-negative target:
the trim `allServers[:targetLimit]` is applied as soon as the accumulated
length reaches the target. -/
theorem fetchLoop_ok_length_le (target : Int) (h0 : 0 ≤ target) :
    ∀ (outcomes : List (Except String PageResponse)) (acc : List ServerResponse)
      (n : Nat) (cursor : String) (servers : List ServerResponse) (tr : Bool)
      (pr : Nat) (cur : String),
      (acc.length : Int) ≤ target →
      fetchLoop target outcomes acc n cursor = SearchOutcome.ok servers tr pr cur →
      (servers.length : Int) ≤ target := by
  intro outcomes
  induction outcomes with
  | nil =>
    intro acc n cursor servers tr pr cur _ h
    unfold fetchLoop at h
    exact absurd h (by simp)
  | cons o rest ih =>
    intro acc n cursor servers tr pr cur hacc h
    cases o with
    | error e =>
      unfold fetchLoop at h
      by_cases hn : n = 0
      · rw [if_pos hn] at h
        exact absurd h (by simp)
      · rw [if_neg hn] at h
        injection h with h1 _ _ _
        rw [← h1]
        exact hacc
    | ok page =>
      unfold fetchLoop at h
      by_cases hge : ((acc ++ page.servers).length : Int) ≥ target
      · rw [if_pos hge] at h
        have hslice : sliceTo (acc ++ page.servers) target =
            some ((acc ++ page.servers).take target.toNat) := by
          unfold sliceTo
          rw [if_pos ⟨h0, hge⟩]
        rw [hslice] at h
        injection h with h1 _ _ _
        rw [← h1]
        have hlen : ((acc ++ page.servers).take target.toNat).length ≤ target.toNat :=
          le_trans (List.length_take_le _ _) (le_refl _)
        have : (((acc ++ page.servers).take target.toNat).length : Int) ≤
            (target.toNat : Int) := Int.ofNat_le.mpr hlen
        rwa [Int.toNat_of_nonneg h0] at this
      · rw [if_neg hge] at h
        by_cases hcur : page.nextCursor = ""
        · rw [if_pos hcur] at h
          injection h with h1 _ _ _
          rw [← h1]
          omega
        · rw [if_neg hcur] at h
          exact ih (acc ++ page.servers) (n + 1) page.nextCursor servers tr pr cur
            (by omega) h

/-- `clampLimit` maps non-negative limits to non-negative targets. -/
theorem clampLimit_nonneg (limit : Int) (h : 0 ≤ limit) : 0 ≤ clampLimit limit := by
  simp only [clampLimit]
  split_ifs <;> omega

/-- C3 (amended): the target-count cap is applied during page accumulation,
before filtering: whenever the fetch loop succeeds, its accumulated list is
already capped at the clamped limit, and the returned server list is the
filters and the sort stage applied to that capped list, with no further cap
afterwards. -/
theorem search_cap_applied_before_filters (params : SearchServersParams)
    (outcomes : List (Except String PageResponse)) (servers : List ServerResponse)
    (tr : Bool) (pr : Nat) (cur : String) (h0 : 0 ≤ params.limit)
    (hfetch : fetchLoop (clampLimit params.limit) outcomes [] 0 params.cursor =
      SearchOutcome.ok servers tr pr cur) :
    searchServers params outcomes =
      SearchOutcome.ok (applySorting (applyFilters servers params) params.sortBy)
        tr pr cur ∧
    (servers.length : Int) ≤ clampLimit params.limit := by
  constructor
  · unfold searchServers
    rw [hfetch]
    dsimp only
    rw [lastCursor_id]
  · exact fetchLoop_ok_length_le (clampLimit params.limit)
      (clampLimit_nonneg params.limit h0) outcomes [] 0 params.cursor servers tr pr
      cur (by simpa using clampLimit_nonneg params.limit h0) hfetch

/-- C3 counterexample: the claim as stated is false.  With a fetched page
`[server-one, match-two]`, limit 1 and name filter "match", the code trims
to the first entry before filtering and returns no servers, while
filter-then-cap would return `match-two`; an entry surviving the filters is
discarded by the mid-fetch truncation. -/
theorem search_cap_not_after_filters_counterexample :
    searchServers cexParams [Except.ok cexPage] = SearchOutcome.ok [] false 1 "" ∧
    (applyFilters cexPage.servers cexParams).take (clampLimit cexParams.limit).toNat =
      [{ server := sampleServer "match-two" [] [] }] ∧
    ([] : List ServerResponse) ≠ [{ server := sampleServer "match-two" [] [] }] := by
  refine ⟨by rfl, by rfl, by simp⟩

/-- Witness for the amended C3 at the concrete scenario: the fetch loop
returns the capped single entry and the final result is the filter and sort
stages applied to it. -/
theorem search_cap_applied_before_filters_witness :
    searchServers cexParams [Except.ok cexPage] =
      SearchOutcome.ok
        (applySorting (applyFilters [{ server := sampleServer "server-one" [] [] }]
          cexParams) cexParams.sortBy) false 1 "" ∧
    (([{ server := sampleServer "server-one" [] [] }] :
        List ServerResponse).length : Int) ≤ clampLimit cexParams.limit :=
  search_cap_applied_before_filters cexParams [Except.ok cexPage]
    [{ server := sampleServer "server-one" [] [] }] false 1 "" (by decide) (by rfl)

/-- C6: self-similarity is forced to 0 (equal names short-circuit the score),
and `findAlternatives` never reports the queried source server among the
alternatives: every candidate with the source's name is skipped before
scoring. -/
theorem self_similarity_zero_and_source_excluded :
    (∀ A B : ServerJSON, A.name = B.name → calculateSimilarityScore A B = 0) ∧
    (∀ (sourceServer : ServerJSON) (allServers : List ServerResponse)
        (limit : Int) (res : List ScoredAlternative),
      findAlternatives sourceServer allServers limit = some res →
      ∀ alt ∈ res, alt.server.server.name ≠ sourceServer.name) := by
  constructor
  · intro A B h
    unfold calculateSimilarityScore
    rw [if_pos h]
  · intro sourceServer allServers limit res hres alt halt
    unfold findAlternatives at hres
    set f : ServerResponse → Option ScoredAlternative := fun serverResp =>
      if serverResp.server.name = sourceServer.name then none
      else
        let score := calculateSimilarityScore sourceServer serverResp.server
        if score > 1/10 then
          some { server := serverResp
                 similarityScore := score
                 migrationComplexity :=
                   estimateMigrationComplexity sourceServer serverResp.server }
        else none with hf
    have halts : alt ∈ (allServers.filterMap f).mergeSort
        (fun a b => decide (b.similarityScore ≤ a.similarityScore)) := by
      dsimp only at hres
      split_ifs at hres
      all_goals
        first
        | exact Option.noConfusion hres
        | (injection hres with hres2
           rw [← hres2] at halt
           exact List.mem_of_mem_take halt)
        | (injection hres with hres2
           rw [← hres2] at halt
           exact halt)
    have haltm : alt ∈ allServers.filterMap f :=
      (List.mergeSort_perm (allServers.filterMap f) _).subset halts
    obtain ⟨resp, _, hfr⟩ := List.mem_filterMap.mp haltm
    rw [hf] at hfr
    dsimp only at hfr
    split_ifs at hfr with h1 h2
    all_goals
      first
      | exact Option.noConfusion hfr
      | (injection hfr with hfr2
         rw [← hfr2]
         exact h1)

/-- Source entry for the C6 concrete run. -/
def altSource : ServerJSON := sampleServer "pg-mcp" ["database"] []

/-- A distinct candidate entry sharing the tag of `altSource`. -/
def altOther : ServerJSON := sampleServer "my-mcp" ["database"] []

/-- The scored alternative `findAlternatives` produces for `altOther`. -/
def altOtherScored : ScoredAlternative :=
  { server := { server := altOther }, similarityScore := 9/20,
    migrationComplexity := "Low" }

/-- Witness for C6 at concrete entries: an entry carrying the source's name
gets score 0, and the alternative reported for `altSource` over the catalog
`[altSource, altOther]` is not the source itself. -/
theorem self_similarity_zero_and_source_excluded_witness :
    calculateSimilarityScore (sampleServer "pg-mcp" ["database"] [])
      (sampleServer "pg-mcp" ["files"] []) = 0 ∧
    altOtherScored.server.server.name ≠ altSource.name := by
  constructor
  · exact self_similarity_zero_and_source_excluded.1
      (sampleServer "pg-mcp" ["database"] []) (sampleServer "pg-mcp" ["files"] []) rfl
  · have hd : calculateSimilarityScore altSource altOther =
        (((1 : Nat) : ℚ) / ((1 : Int) : ℚ)) * (4/10) + 0 * (4/10) +
          (1/2) * (1/10) + 0 * (1/10) := by rfl
    have hscore : calculateSimilarityScore altSource altOther = 9/20 := by
      rw [hd]
      norm_num
    have hmc : estimateMigrationComplexity altSource altOther = "Low" := by rfl
    have hgt : (10 : ℚ)⁻¹ < 9/20 := by norm_num
    have hname : ¬ altOther.name = altSource.name := by decide
    have hres : findAlternatives altSource
        [{ server := altSource }, { server := altOther }] 0 =
        some [altOtherScored] := by
      unfold findAlternatives
      simp only [List.filterMap_cons, List.filterMap_nil]
      simp [hscore, hmc, hgt, hname, altOtherScored, List.mergeSort_singleton]
    exact self_similarity_zero_and_source_excluded.2 altSource
      [{ server := altSource }, { server := altOther }] 0 [altOtherScored] hres
      altOtherScored (by simp)

/-- `List.contains` agrees with decidable membership. -/
theorem contains_eq_decide_mem {α : Type} [DecidableEq α] (l : List α) (a : α) :
    l.contains a = decide (a ∈ l) := by
  by_cases h : a ∈ l <;> simp [h]

/-- For duplicate-free lists, counting the elements of one list that occur in
the other is symmetric: both sides equal the size of the intersection of the
two element sets. -/
theorem filter_mem_length_comm {α : Type} [DecidableEq α] (l1 l2 : List α)
    (h1 : l1.Nodup) (h2 : l2.Nodup) :
    (l2.filter (fun a => a ∈ l1)).length = (l1.filter (fun a => a ∈ l2)).length := by
  have e2 : (l2.filter (fun a => a ∈ l1)).toFinset = l2.toFinset ∩ l1.toFinset := by
    ext a
    simp [List.mem_filter, and_comm]
  have e1 : (l1.filter (fun a => a ∈ l2)).toFinset = l1.toFinset ∩ l2.toFinset := by
    ext a
    simp [List.mem_filter, and_comm]
  calc (l2.filter (fun a => a ∈ l1)).length
      = (l2.filter (fun a => a ∈ l1)).toFinset.card :=
        (List.toFinset_card_of_nodup (h2.filter _)).symm
    _ = (l2.toFinset ∩ l1.toFinset).card := by rw [e2]
    _ = (l1.toFinset ∩ l2.toFinset).card := by rw [Finset.inter_comm]
    _ = (l1.filter (fun a => a ∈ l2)).toFinset.card := by rw [e1]
    _ = (l1.filter (fun a => a ∈ l2)).length :=
        List.toFinset_card_of_nodup (h1.filter _)

/-- The match count of the overlap scores, written over the lower-cased
lists. -/
theorem countP_lower_eq (l1 l2 : List String) :
    l2.countP (fun t => (l1.map lower).contains (lower t)) =
    ((l2.map lower).filter (fun t => t ∈ l1.map lower)).length := by
  rw [← List.countP_eq_length_filter]
  rw [List.countP_map (fun t => decide (t ∈ l1.map lower)) lower l2]
  exact List.countP_congr (fun t _ => by
    rw [Function.comp_apply, contains_eq_decide_mem])

/-- When both lower-cased lists are duplicate-free, the match count of the
overlap scores is symmetric. -/
theorem countP_lower_comm (l1 l2 : List String)
    (h1 : (l1.map lower).Nodup) (h2 : (l2.map lower).Nodup) :
    l2.countP (fun t => (l1.map lower).contains (lower t)) =
    l1.countP (fun t => (l2.map lower).contains (lower t)) := by
  rw [countP_lower_eq l1 l2, countP_lower_eq l2 l1]
  exact filter_mem_length_comm (l1.map lower) (l2.map lower) h1 h2

/-- C2 machinery: the tag-overlap score is symmetric for entries whose
lower-cased tag lists carry no duplicates. -/
theorem scoreTagOverlap_comm (l1 l2 : List String)
    (h1 : (l1.map lower).Nodup) (h2 : (l2.map lower).Nodup) :
    scoreTagOverlap l1 l2 = scoreTagOverlap l2 l1 := by
  unfold scoreTagOverlap
  dsimp only
  by_cases hc : l1.length = 0 ∨ l2.length = 0
  · rw [if_pos hc, if_pos hc.symm]
  · rw [if_neg hc, if_neg (show ¬(l2.length = 0 ∨ l1.length = 0) from
      fun hcc => hc hcc.symm)]
    rw [countP_lower_comm l1 l2 h1 h2]
    rw [add_comm (l1.length : Int) (l2.length : Int)]

/-- The tool-overlap score is the same computation as the tag-overlap
score. -/
theorem scoreToolOverlap_comm (l1 l2 : List String)
    (h1 : (l1.map lower).Nodup) (h2 : (l2.map lower).Nodup) :
    scoreToolOverlap l1 l2 = scoreToolOverlap l2 l1 :=
  scoreTagOverlap_comm l1 l2 h1 h2

/-- The stateful match loop of the description similarity counts exactly the
size of the multiset intersection between the long words of the scanned list
and the pool. -/
theorem consumeMatches_eq_inter_card :
    ∀ (ws : List String) (pool : Multiset String),
      consumeMatches ws pool =
        Multiset.card ((↑(ws.filter (fun w => w.length > 3)) : Multiset String) ∩ pool) := by
  intro ws
  induction ws with
  | nil => intro pool; simp [consumeMatches]
  | cons w rest ih =>
    intro pool
    unfold consumeMatches
    by_cases hw : w.length > 3 ∧ w ∈ pool
    · rw [if_pos hw]
      rw [List.filter_cons_of_pos (by simpa using hw.1)]
      rw [show ((↑(w :: rest.filter (fun w => w.length > 3)) : Multiset String)) =
        w ::ₘ ↑(rest.filter (fun w => w.length > 3)) from rfl]
      rw [Multiset.cons_inter_of_pos _ hw.2]
      simp [ih, Nat.add_comm]
    · rw [if_neg hw]
      by_cases hlen : w.length > 3
      · have hpool : w ∉ pool := fun hp => hw ⟨hlen, hp⟩
        rw [List.filter_cons_of_pos (by simpa using hlen)]
        rw [show ((↑(w :: rest.filter (fun w => w.length > 3)) : Multiset String)) =
          w ::ₘ ↑(rest.filter (fun w => w.length > 3)) from rfl]
        rw [Multiset.cons_inter_of_neg _ hpool]
        exact ih pool
      · rw [List.filter_cons_of_neg (by simpa using hlen)]
        exact ih pool

/-- The description similarity is symmetric for all descriptions: the match
count is a multiset-intersection size and the divisor is the smaller word
count. -/
theorem scoreDescriptionSimilarity_comm (a b : String) :
    scoreDescriptionSimilarity a b = scoreDescriptionSimilarity b a := by
  unfold scoreDescriptionSimilarity
  dsimp only
  by_cases hc : (fields (lower a)).length = 0 ∨ (fields (lower b)).length = 0
  · rw [if_pos hc, if_pos hc.symm]
  · rw [if_neg hc, if_neg (show ¬((fields (lower b)).length = 0 ∨
        (fields (lower a)).length = 0) from fun hcc => hc hcc.symm)]
    rw [consumeMatches_eq_inter_card, consumeMatches_eq_inter_card]
    rw [Multiset.inter_comm]
    rw [min_comm ((fields (lower a)).length) ((fields (lower b)).length)]

/-- The transport compatibility score is symmetric. -/
theorem scoreTransportCompatibility_comm (A B : ServerJSON) :
    scoreTransportCompatibility A B = scoreTransportCompatibility B A := by
  unfold scoreTransportCompatibility
  cases hA : A.packages with
  | nil =>
    cases hB : B.packages with
    | nil => rfl
    | cons pb tb => rfl
  | cons pa ta =>
    cases hB : B.packages with
    | nil => rfl
    | cons pb tb =>
      dsimp only
      by_cases h : lower pa.transport.type = lower pb.transport.type
      · rw [if_pos h, if_pos h.symm]
      · rw [if_neg h, if_neg (fun hh => h hh.symm)]

/-- C2 counterexample: with a duplicated tag the similarity is NOT
symmetric.  Entry `pg-mcp` carries tags `["x", "x"]`, entry `my-mcp`
carries `["x"]`: the forward score is 0.25, the backward score 0.85. -/
theorem similarity_not_symmetric_on_duplicate_tags :
    (sampleServer "pg-mcp" ["x", "x"] []).name ≠
      (sampleServer "my-mcp" ["x"] []).name ∧
    calculateSimilarityScore (sampleServer "pg-mcp" ["x", "x"] [])
        (sampleServer "my-mcp" ["x"] []) ≠
      calculateSimilarityScore (sampleServer "my-mcp" ["x"] [])
        (sampleServer "pg-mcp" ["x", "x"] []) := by
  constructor
  · decide
  · have h1 : calculateSimilarityScore (sampleServer "pg-mcp" ["x", "x"] [])
        (sampleServer "my-mcp" ["x"] []) =
        (((1 : Nat) : ℚ) / ((2 : Int) : ℚ)) * (4/10) + 0 * (4/10) +
          (1/2) * (1/10) + 0 * (1/10) := by rfl
    have h2 : calculateSimilarityScore (sampleServer "my-mcp" ["x"] [])
        (sampleServer "pg-mcp" ["x", "x"] []) =
        (((2 : Nat) : ℚ) / ((1 : Int) : ℚ)) * (4/10) + 0 * (4/10) +
          (1/2) * (1/10) + 0 * (1/10) := by rfl
    rw [h1, h2]
    norm_num

/-- C2 (amended): `calculateSimilarityScore` is symmetric for every pair of
entries whose lower-cased tag lists and tool lists contain no duplicates
(the failure mode of the counterexample); the description and transport
components are symmetric unconditionally. -/
theorem similarity_symmetric_without_duplicates (A B : ServerJSON)
    (htagA : ((extractTags A).map lower).Nodup)
    (htagB : ((extractTags B).map lower).Nodup)
    (htoolA : ((extractTools A).map lower).Nodup)
    (htoolB : ((extractTools B).map lower).Nodup) :
    calculateSimilarityScore A B = calculateSimilarityScore B A := by
  unfold calculateSimilarityScore
  by_cases hn : A.name = B.name
  · rw [if_pos hn, if_pos hn.symm]
  · rw [if_neg hn, if_neg (fun h => hn h.symm)]
    dsimp only
    rw [scoreTagOverlap_comm _ _ htagA htagB]
    rw [scoreToolOverlap_comm _ _ htoolA htoolB]
    rw [scoreDescriptionSimilarity_comm, scoreTransportCompatibility_comm]

/-- Witness for the amended C2 at concrete duplicate-free entries. -/
theorem similarity_symmetric_without_duplicates_witness :
    calculateSimilarityScore (sampleServer "pg-mcp" ["database", "sql"] ["query"])
        (sampleServer "my-mcp" ["database"] ["query", "execute"]) =
      calculateSimilarityScore (sampleServer "my-mcp" ["database"] ["query", "execute"])
        (sampleServer "pg-mcp" ["database", "sql"] ["query"]) :=
  similarity_symmetric_without_duplicates
    (sampleServer "pg-mcp" ["database", "sql"] ["query"])
    (sampleServer "my-mcp" ["database"] ["query", "execute"])
    (by decide) (by decide) (by decide) (by decide)

/-- One provider entry observed under two map-iteration orders: the key is
the same; a JSON-object value may have its entries permuted (the second
level of iteration in `extractToolHiveMetadata`); any other value is
unchanged. -/
def providerReorder (p q : String × Val) : Prop :=
  p.1 = q.1 ∧
    ((∃ m1 m2, p.2 = Val.map m1 ∧ q.2 = Val.map m2 ∧ m1.Perm m2) ∨ p.2 = q.2)

/-- Two iteration orders of the same `PublisherProvided` map: a permutation
of pairwise `providerReorder`-related entries. -/
def metaReorder (pp1 pp2 : List (String × Val)) : Prop :=
  ∃ mid, List.Forall₂ providerReorder pp1 mid ∧ mid.Perm pp2

/-- Two observations of the same server value under different map-iteration
orders: all plain fields agree and the publisher metadata differs only in
iteration order. -/
def serverReorder (s1 s2 : ServerJSON) : Prop :=
  s1.name = s2.name ∧ s1.description = s2.description ∧
  s1.version = s2.version ∧ s1.packages = s2.packages ∧
  ((s1.meta = none ∧ s2.meta = none) ∨
   (∃ pp1 pp2, s1.meta = some pp1 ∧ s2.meta = some pp2 ∧ metaReorder pp1 pp2))

/-- At most one provider namespace, holding at most one package entry. -/
def smallMeta (s : ServerJSON) : Prop :=
  ∀ pp, s.meta = some pp →
    pp.length ≤ 1 ∧ ∀ p ∈ pp, ∀ m, p.2 = Val.map m → m.length ≤ 1

/-- A permutation of a list of length at most one is the identity. -/
theorem perm_eq_of_length_le_one {α : Type} {l1 l2 : List α} (h : l1.Perm l2)
    (hl : l1.length ≤ 1) : l1 = l2 := by
  cases l1 with
  | nil => exact ((List.nil_perm).mp h).symm
  | cons a t =>
    cases t with
    | nil => exact (List.perm_singleton.mp h.symm).symm
    | cons b u => simp at hl

/-- `providerReorder`-related lists are equal when every provider's package
map has at most one entry. -/
theorem forall2_providerReorder_eq :
    ∀ (pp mid : List (String × Val)),
      List.Forall₂ providerReorder pp mid →
      (∀ p ∈ pp, ∀ m, p.2 = Val.map m → m.length ≤ 1) → pp = mid := by
  intro pp mid hf
  induction hf with
  | nil => intro _; rfl
  | @cons p q l1 l2 hpq hrest ih =>
    intro hsmall
    have hp2 : p.2 = q.2 := by
      rcases hpq.2 with ⟨m1, m2, hm1, hm2, hperm⟩ | heq
      · have hle : m1.length ≤ 1 := hsmall p (by simp) m1 hm1
        have hm12 : m1 = m2 := perm_eq_of_length_le_one hperm hle
        rw [hm1, hm2, hm12]
      · exact heq
    have hpq2 : p = q := by
      obtain ⟨hk, _⟩ := hpq
      cases p
      cases q
      simp_all
    rw [hpq2, ih (fun x hx => hsmall x (by simp [hx]))]

/-- An entry whose metadata carries two package identifiers under one
provider namespace, in one iteration order... -/
def multiPkgA : ServerJSON :=
  { name := "multi", description := "", version := "1.0.0", packages := [],
    meta := some [("io.github.example", Val.map
      [("pkg-one", Val.map [("tags", Val.arr [Val.str "alpha"])]),
       ("pkg-two", Val.map [("tags", Val.arr [Val.str "beta"])])])] }

/-- ... and the same server value with the two packages iterated in the
opposite order. -/
def multiPkgB : ServerJSON :=
  { name := "multi", description := "", version := "1.0.0", packages := [],
    meta := some [("io.github.example", Val.map
      [("pkg-two", Val.map [("tags", Val.arr [Val.str "beta"])]),
       ("pkg-one", Val.map [("tags", Val.arr [Val.str "alpha"])])])] }

/-- C9: with at most one provider namespace holding at most one package map,
`extractToolHiveMetadata` — and the stars, pulls, tools, tags, tier, status,
filter decisions and similarity scores derived from it — is a deterministic
function of the server value: any two iteration orders of the same value
yield equal results.  With several packages present, the function returns
the first package map in iteration order, so two orders of the same value
(`multiPkgA`, `multiPkgB`) extract different metadata. -/
theorem metadata_extraction_determinism :
    (∀ s1 s2 : ServerJSON, serverReorder s1 s2 → smallMeta s1 →
      extractToolHiveMetadata s1 = extractToolHiveMetadata s2 ∧
      extractStars s1 = extractStars s2 ∧ extractPulls s1 = extractPulls s2 ∧
      extractTools s1 = extractTools s2 ∧ extractTags s1 = extractTags s2 ∧
      tierOf s1 = tierOf s2 ∧ statusOf s1 = statusOf s2 ∧
      (∀ params, matchesAllFilters s1 params = matchesAllFilters s2 params) ∧
      (∀ t, calculateSimilarityScore s1 t = calculateSimilarityScore s2 t)) ∧
    (serverReorder multiPkgA multiPkgB ∧
      extractTags multiPkgA ≠ extractTags multiPkgB) := by
  constructor
  · intro s1 s2 hre hsm
    have heq : s1 = s2 := by
      obtain ⟨hn, hd, hv, hp, hm⟩ := hre
      rcases hm with ⟨h1, h2⟩ | ⟨pp1, pp2, h1, h2, mid, hf, hperm⟩
      · cases s1
        cases s2
        simp_all
      · have hlen := (hsm pp1 h1).1
        have hsmall2 := (hsm pp1 h1).2
        have hmid : pp1 = mid := forall2_providerReorder_eq pp1 mid hf hsmall2
        have hpp2 : mid = pp2 :=
          perm_eq_of_length_le_one hperm (hmid ▸ hlen)
        have hmeta : s1.meta = s2.meta := by rw [h1, h2, hmid, hpp2]
        cases s1
        cases s2
        simp_all
    subst heq
    exact ⟨rfl, rfl, rfl, rfl, rfl, rfl, rfl, fun _ => rfl, fun _ => rfl⟩
  · constructor
    · refine ⟨rfl, rfl, rfl, rfl, Or.inr ⟨_, _, rfl, rfl, ?_⟩⟩
      refine ⟨[("io.github.example", Val.map
        [("pkg-two", Val.map [("tags", Val.arr [Val.str "beta"])]),
         ("pkg-one", Val.map [("tags", Val.arr [Val.str "alpha"])])])], ?_, List.Perm.refl _⟩
      exact List.Forall₂.cons
        ⟨rfl, Or.inl ⟨_, _, rfl, rfl, List.Perm.swap _ _ []⟩⟩ List.Forall₂.nil
    · decide

/-- Witness for C9 at a concrete single-provider, single-package server:
the reorder relation holds reflexively and the extraction is determined. -/
theorem metadata_extraction_determinism_witness :
    extractToolHiveMetadata (sampleServer "pg-mcp" ["database"] []) =
      extractToolHiveMetadata (sampleServer "pg-mcp" ["database"] []) ∧
    extractTags (sampleServer "pg-mcp" ["database"] []) =
      extractTags (sampleServer "pg-mcp" ["database"] []) := by
  have h := metadata_extraction_determinism.1
    (sampleServer "pg-mcp" ["database"] []) (sampleServer "pg-mcp" ["database"] [])
    (by
      refine ⟨rfl, rfl, rfl, rfl, Or.inr ⟨_, _, rfl, rfl, ?_⟩⟩
      exact ⟨_, List.Forall₂.cons ⟨rfl, Or.inr rfl⟩ List.Forall₂.nil,
        List.Perm.refl _⟩)
    (by
      intro pp hpp
      injection hpp with hpp2
      rw [← hpp2]
      refine ⟨by simp, ?_⟩
      intro p hp m hm
      simp only [List.mem_singleton] at hp
      rw [hp] at hm
      injection hm with hm2
      rw [← hm2]
      simp)
  exact ⟨h.1, h.2.2.2.2.1⟩

end RegistryMCP
